import Mathlib

/-!
Shallow embedding of the `mcpi` package (master-pfa-info/mcpi, web.go).

The package runs a coordinator goroutine (`server.run`) that receives
submitted points on the `datac` channel, classifies each against the unit
circle, appends it to one of two point sets (`in` / `out`), and — on a
decade-based cadence over the running count `n` — renders a plot and sends
it on the unbuffered `plots` channel.  The `done` branch forces a final
plot, sleeps one second, acknowledges on `quit` and returns.

Points are modelled with rational coordinates; the rendering backend
(hplot / PNG / base64) is opaque plumbing, so the embedded `plot` keeps
the renderer inputs that the specification talks about: the count tag,
the title estimate `4*len(in)/n`, and the two truncated point slices.
-/

set_option maxRecDepth 100000

namespace Mcpi

/-- Classification outcome of a submitted point: inside or outside the
unit circle.  In `run`, `d2 < 1` selects the `in` set, everything else
the `out` set. -/
inductive Class where
  | Inner : Class
  | Outer : Class
deriving DecidableEq, Repr

/-- A submitted point, as appended to `plotter.XYs` in `run`
(the anonymous `struct{ X, Y float64 }`). -/
structure Sample where
  x : ℚ
  y : ℚ
deriving DecidableEq, Repr

/-- Conversion from the `[2]float64` received on `datac` to a stored point. -/
def toSample (v : ℚ × ℚ) : Sample := ⟨v.1, v.2⟩

/-- The classification performed in `run`: `d2 := x*x + y*y`; the point
goes to the `in` set when `d2 < 1`, otherwise to the `out` set. -/
def classify (x y : ℚ) : Class :=
  if x * x + y * y < 1 then Class.Inner else Class.Outer

/-- Mutable state owned by the `run` goroutine: the two classified point
sets and the running count, fields `in`, `out`, `n` of `server`. -/
structure ServerState where
  inPts  : List Sample
  outPts : List Sample
  n      : ℕ
deriving DecidableEq, Repr

/-- Initial server state from `newServer`: two empty slices and `n = 0`. -/
def initState : ServerState := ⟨[], [], 0⟩

/-- The cadence decision of the `switch` on `srv.n` in `run`: the chain of
cases `srv.n < 1e1`, …, `srv.n < 1e7`, and finally `srv.n > 1e7`
(strict, so `n = 1e7` matches no case and produces no plot). -/
def shouldSnapshot (n : ℕ) : Bool :=
  if n < 10 then n % 1 == 0
  else if n < 100 then n % 10 == 0
  else if n < 1000 then n % 100 == 0
  else if n < 10000 then n % 1000 == 0
  else if n < 100000 then n % 10000 == 0
  else if n < 1000000 then n % 100000 == 0
  else if n < 10000000 then n % 1000000 == 0
  else if n > 10000000 then n % 10000000 == 0
  else false

/-- Follows the spec's words (cadence policy, §4.2): for `n` in
`[10^k, 10^(k+1))`, snapshot exactly when `n mod 10^k == 0`, for every
decade unboundedly.  For `n ≥ 1`, `Nat.log 10 n` is the `k` with
`10^k ≤ n < 10^(k+1)`. -/
def cadenceSpec (n : ℕ) : Prop := n % 10 ^ Nat.log 10 n = 0

/-- The render cap constant `pmax = 1e6` in `plot`. -/
def pmax : ℕ := 1000000

/-- The helper `func min(a, b int) int` of web.go. -/
def mcpiMin (a b : ℕ) : ℕ := if a < b then a else b

/-- The renderer inputs assembled by `func plot(n int, in, out plotter.XYs)`:
the count in the title, the estimate `pi := 4 * float64(len(in)) / float64(n)`
in the title, and the two scatter slices `in[:min(pmax, len(in))]` and
`out[:min(pmax/2, len(out))]`.  The actual PNG/base64 rendering is opaque
plumbing and is not modelled. -/
structure WPlot where
  n        : ℕ
  titlePi  : ℚ
  drawnIn  : List Sample
  drawnOut : List Sample
deriving DecidableEq, Repr

/-- Embeds `func plot`: title estimate from the full `in` length and `n`,
drawn slices truncated with `min(pmax, len(in))` and `min(pmax/2, len(out))`. -/
def plot (n : ℕ) (inPts outPts : List Sample) : WPlot :=
  { n := n
  , titlePi := 4 * (inPts.length : ℚ) / (n : ℚ)
  , drawnIn := inPts.take (mcpiMin pmax inPts.length)
  , drawnOut := outPts.take (mcpiMin (pmax / 2) outPts.length) }

/-- One `datac` message in `run`: increment `n`, classify and append the
point, then — per the cadence `switch` — possibly produce a plot of the
updated sets. -/
def stepData (srv : ServerState) (v : ℚ × ℚ) : ServerState × Option WPlot :=
  let srv' :=
    match classify v.1 v.2 with
    | Class.Inner => { srv with inPts := srv.inPts ++ [toSample v], n := srv.n + 1 }
    | Class.Outer => { srv with outPts := srv.outPts ++ [toSample v], n := srv.n + 1 }
  (srv', if shouldSnapshot (srv.n + 1)
         then some (plot (srv.n + 1) srv'.inPts srv'.outPts)
         else none)

/-- A message received by the `run` loop: a point on `datac`, or the
termination signal on `done`. -/
inductive Msg where
  | data : ℚ × ℚ → Msg
  | done : Msg

/-- Observable action of the `run` loop: a send on the `plots` channel, the
one-second `time.Sleep`, or the acknowledgement sent on `srv.quit`. -/
inductive Event where
  | publish    : WPlot → Event
  | sleepMs    : ℕ → Event
  | signalQuit : Event
deriving DecidableEq, Repr

/-- Whether an event is a send on the `plots` channel. -/
def isPublish : Event → Bool
  | Event.publish _ => true
  | _ => false

/-- Whether an event is the acknowledgement on `srv.quit`. -/
def isQuitAck : Event → Bool
  | Event.signalQuit => true
  | _ => false

/-- The `run` loop of web.go over a list of received messages.  A `data`
message is processed by `stepData`; a `done` message publishes one forced
plot of the current state, sleeps one second, acknowledges on `quit` and
returns — messages after the first `done` are never received, because the
loop has exited. -/
def run (srv : ServerState) : List Msg → ServerState × List Event
  | [] => (srv, [])
  | Msg.data v :: rest =>
      ((run (stepData srv v).1 rest).1,
        ((stepData srv v).2.toList.map Event.publish) ++ (run (stepData srv v).1 rest).2)
  | Msg.done :: _ =>
      (srv, [Event.publish (plot srv.n srv.inPts srv.outPts),
             Event.sleepMs 1000, Event.signalQuit])

/-- Number of `quit` acknowledgements emitted by a run of the loop from the
initial state.  Each call to `Quit()` performs `srv.done <- 1; <-srv.quit`
and therefore returns only after receiving one such acknowledgement. -/
def quitAcks (msgs : List Msg) : ℕ := ((run initState msgs).2).countP isQuitAck

/-- Counts the cadence hits among the `len` counts following `n0`,
matching the recursion of the `run` loop over data messages. -/
def cadenceCount (n0 : ℕ) : ℕ → ℕ
  | 0 => 0
  | len + 1 => (if shouldSnapshot (n0 + 1) then 1 else 0) + cadenceCount (n0 + 1) len

/-- The `plots` channel is created by `make(chan wplot)`: an unbuffered Go
channel, buffer capacity zero. -/
def plotsChanCap : ℕ := 0

/-- Semantics of a send on a Go channel with buffer capacity `cap` and
`used` buffered values, when `receivers` receivers are ready: the send
completes immediately iff a receiver is ready or buffer space is free;
otherwise the sender blocks.  Nothing is ever dropped or overwritten. -/
def sendBlocks (cap used receivers : ℕ) : Bool :=
  receivers == 0 && !(used < cap)

/-- Whether a send on `srv.plots` (as in the cadence branches of `run` and
the `done` branch) blocks, given the number of ready receivers. -/
def publishBlocks (receivers : ℕ) : Bool :=
  sendBlocks plotsChanCap 0 receivers

/-- The `dataHandler` websocket loop: `for data := range srv.plots` forwards
every received plot, in order; a send error is logged and the loop
continues.  Nothing is dropped, replaced, or reordered. -/
def dataHandler : List WPlot → List WPlot
  | [] => []
  | p :: rest => p :: dataHandler rest

end Mcpi

namespace Mcpi

/-! ## Helper lemmas -/

lemma mcpiMin_le_right (a b : ℕ) : mcpiMin a b ≤ b := by
  unfold mcpiMin
  split
  · omega
  · exact le_rfl

lemma take_mcpiMin (k : ℕ) (l : List Sample) :
    l.take (mcpiMin k l.length) = l.take k := by
  unfold mcpiMin
  split
  · rfl
  · rw [List.take_length, List.take_of_length_le (by omega)]

lemma plot_n (n : ℕ) (inPts outPts : List Sample) :
    (plot n inPts outPts).n = n := rfl

lemma plot_titlePi (n : ℕ) (inPts outPts : List Sample) :
    (plot n inPts outPts).titlePi = 4 * (inPts.length : ℚ) / (n : ℚ) := rfl

lemma plot_drawnIn (n : ℕ) (inPts outPts : List Sample) :
    (plot n inPts outPts).drawnIn = inPts.take (mcpiMin pmax inPts.length) := rfl

lemma plot_drawnOut (n : ℕ) (inPts outPts : List Sample) :
    (plot n inPts outPts).drawnOut
      = outPts.take (mcpiMin (pmax / 2) outPts.length) := rfl

/-! ## C2: classification -/

/-- C2: classification is a total deterministic function of the point, with
no side effects (it is a pure Lean function), and it returns `Inner`
exactly when `x² + y² < 1` and `Outer` otherwise. -/
theorem C2_classify_iff (x y : ℚ) :
    (classify x y = Class.Inner ↔ x ^ 2 + y ^ 2 < 1) ∧
    (classify x y = Class.Outer ↔ ¬ (x ^ 2 + y ^ 2 < 1)) := by
  unfold classify
  rw [pow_two, pow_two]
  split <;> simp_all

/-! ## C1: the cadence predicate and its decade-boundary gap -/

/-- C1: the `run` cadence is a pure function of `n` with the documented
values at 10, 15, 100, 999 and 1000, but the unbounded decade rule of the
spec fails at `n = 10^7`: the switch cases are `srv.n < 1e7` and
`srv.n > 1e7`, so `n = 10^7` matches no case and no snapshot is produced,
while the spec's decade rule (`cadenceSpec`) demands one there. -/
theorem C1_cadence_boundary_gap :
    shouldSnapshot 10 = true ∧ shouldSnapshot 15 = false ∧
    shouldSnapshot 100 = true ∧ shouldSnapshot 999 = false ∧
    shouldSnapshot 1000 = true ∧
    cadenceSpec 10000000 ∧ shouldSnapshot 10000000 = false := by
  refine ⟨by decide, by decide, by decide, by decide, by decide, ?_, by decide⟩
  have hl : Nat.log 10 10000000 = 7 := by
    rw [show (10000000 : ℕ) = 10 ^ 7 by norm_num]
    exact Nat.log_pow (by norm_num) 7
  unfold cadenceSpec
  rw [hl]
  norm_num

/-! ## C10: the draw-cap slice indices are always in bounds -/

/-- C10: the truncation indices computed with `min` in `plot` never exceed
the respective set sizes, so the slices `in[:min(pmax, len(in))]` and
`out[:min(pmax/2, len(out))]` are always in bounds and have exactly the
capped length, for sets of any size including empty ones. -/
theorem C10_slice_bounds (n : ℕ) (inPts outPts : List Sample) :
    mcpiMin pmax inPts.length ≤ inPts.length ∧
    mcpiMin (pmax / 2) outPts.length ≤ outPts.length ∧
    (plot n inPts outPts).drawnIn.length = mcpiMin pmax inPts.length ∧
    (plot n inPts outPts).drawnOut.length = mcpiMin (pmax / 2) outPts.length := by
  refine ⟨mcpiMin_le_right _ _, mcpiMin_le_right _ _, ?_, ?_⟩
  · rw [plot_drawnIn, List.length_take]
    exact Nat.min_eq_left (mcpiMin_le_right _ _)
  · rw [plot_drawnOut, List.length_take]
    exact Nat.min_eq_left (mcpiMin_le_right _ _)

/-! ## C6: the draw caps are asymmetric -/

/-- C6 counterexample: an outer set of 500001 points is below the claimed
common cap `M = 10^6`, so under the claim all of it would be passed for
drawing; but `plot` truncates the outer set with `min(pmax/2, len(out))`
and passes only 500000 points. -/
theorem C6_counterexample :
    (List.replicate 500001 (Sample.mk 2 2)).length ≤ 1000000 ∧
    (plot 500001 [] (List.replicate 500001 (Sample.mk 2 2))).drawnOut
      ≠ List.replicate 500001 (Sample.mk 2 2) := by
  have hrep : (List.replicate 500001 (Sample.mk 2 2)).length = 500001 :=
    List.length_replicate 500001 (Sample.mk 2 2)
  constructor
  · rw [hrep]
    norm_num
  · intro h
    have hmin : mcpiMin (pmax / 2) (500001 : ℕ) = 500000 := by
      unfold mcpiMin pmax
      norm_num
    have hlen := congrArg List.length h
    rw [plot_drawnOut, List.length_take, hrep, hmin] at hlen
    omega

/-- C6 amended: at most the first `pmax = 10^6` points of the inner set and
at most the first `pmax/2 = 5·10^5` points of the outer set are passed for
drawing (the two caps differ, and `pmax` is a fixed constant), while the
full inner set and count are retained for the title estimate. -/
theorem C6_draw_caps (n : ℕ) (inPts outPts : List Sample) :
    (plot n inPts outPts).drawnIn = inPts.take 1000000 ∧
    (plot n inPts outPts).drawnOut = outPts.take 500000 ∧
    (plot n inPts outPts).drawnIn.length ≤ 1000000 ∧
    (plot n inPts outPts).drawnOut.length ≤ 500000 ∧
    (plot n inPts outPts).titlePi = 4 * (inPts.length : ℚ) / (n : ℚ) := by
  have hin : (plot n inPts outPts).drawnIn = inPts.take 1000000 := by
    rw [plot_drawnIn, take_mcpiMin]
    rfl
  have hout : (plot n inPts outPts).drawnOut = outPts.take 500000 := by
    rw [plot_drawnOut, take_mcpiMin]
    rfl
  refine ⟨hin, hout, ?_, ?_, plot_titlePi n inPts outPts⟩
  · rw [hin, List.length_take]
    omega
  · rw [hout, List.length_take]
    omega

/-! ## C7: the estimate uses the full inner set and the full count -/

/-- C7: for every render invocation with `n ≥ 1` the title estimate is
`4 · |in| / n`, computed from the full (untruncated) inner-set length and
the full running count, for inner sets of any size — the draw cap plays no
role in it. -/
theorem C7_estimate_full_count (n : ℕ) (inPts outPts : List Sample)
    (h : 1 ≤ n) :
    (plot n inPts outPts).titlePi = 4 * (inPts.length : ℚ) / (n : ℚ) ∧
    (plot n inPts outPts).titlePi * (n : ℚ) = 4 * (inPts.length : ℚ) := by
  have hn : (n : ℚ) ≠ 0 := by
    have : 0 < n := h
    exact_mod_cast this.ne'
  refine ⟨plot_titlePi n inPts outPts, ?_⟩
  rw [plot_titlePi]
  field_simp

/-- Witness for C7 at the spec's concrete scenario: `n = 3` with two inner
points gives title estimate `8/3`. -/
theorem C7_witness :
    (plot 3 [Sample.mk 0 0, Sample.mk (1/2) (1/2)] [Sample.mk 2 2]).titlePi
        * (3 : ℚ)
      = 4 * (([Sample.mk 0 0, Sample.mk (1/2) (1/2)] : List Sample).length : ℚ) :=
  (C7_estimate_full_count 3 [Sample.mk 0 0, Sample.mk (1/2) (1/2)]
    [Sample.mk 2 2] (by norm_num)).2

/-! ## C9: publication is a blocking rendezvous, not replace-not-queue -/

/-- C9 counterexample: with no attached receiver, a send on the unbuffered
`plots` channel blocks the producer — refuting the claim that a slow or
absent subscriber never blocks the publish. -/
theorem C9_counterexample : publishBlocks 0 = true := rfl

/-- C9 amended: a publish on `srv.plots` blocks exactly when no receiver is
ready (unbuffered channel, capacity 0), and the `dataHandler` consumer
forwards every received snapshot in order — queue-and-wait rendezvous
semantics, with nothing dropped or replaced. -/
theorem C9_blocking_rendezvous :
    (∀ receivers : ℕ, publishBlocks receivers = (receivers == 0)) ∧
    (∀ ps : List WPlot, dataHandler ps = ps) := by
  constructor
  · intro r
    simp [publishBlocks, sendBlocks, plotsChanCap]
  · intro ps
    induction ps with
    | nil => rfl
    | cons p rest ih => simp [dataHandler, ih]

end Mcpi

namespace Mcpi

/-! ## Run-loop lemmas -/

lemma stepData_fst_inner (srv : ServerState) (v : ℚ × ℚ)
    (h : classify v.1 v.2 = Class.Inner) :
    (stepData srv v).1
      = { srv with inPts := srv.inPts ++ [toSample v], n := srv.n + 1 } := by
  simp only [stepData, h]

lemma stepData_fst_outer (srv : ServerState) (v : ℚ × ℚ)
    (h : classify v.1 v.2 = Class.Outer) :
    (stepData srv v).1
      = { srv with outPts := srv.outPts ++ [toSample v], n := srv.n + 1 } := by
  simp only [stepData, h]

lemma stepData_n (srv : ServerState) (v : ℚ × ℚ) :
    (stepData srv v).1.n = srv.n + 1 := by
  cases h : classify v.1 v.2
  · rw [stepData_fst_inner srv v h]
  · rw [stepData_fst_outer srv v h]

lemma run_data_fst (ps : List (ℚ × ℚ)) : ∀ srv : ServerState,
    (run srv (ps.map Msg.data)).1 =
      ⟨srv.inPts ++ (ps.filter fun v => decide (classify v.1 v.2 = Class.Inner)).map toSample,
       srv.outPts ++ (ps.filter fun v => decide (classify v.1 v.2 = Class.Outer)).map toSample,
       srv.n + ps.length⟩ := by
  induction ps with
  | nil =>
      intro srv
      simp [run]
  | cons p rest ih =>
      intro srv
      cases hc : classify p.1 p.2 with
      | Inner =>
          simp only [List.map_cons, run]
          rw [ih, stepData_fst_inner srv p hc]
          simp [List.filter_cons, hc, List.append_assoc]
          try omega
      | Outer =>
          simp only [List.map_cons, run]
          rw [ih, stepData_fst_outer srv p hc]
          simp [List.filter_cons, hc, List.append_assoc]
          try omega

lemma classify_filter_length (ps : List (ℚ × ℚ)) :
    (ps.filter fun v => decide (classify v.1 v.2 = Class.Inner)).length +
      (ps.filter fun v => decide (classify v.1 v.2 = Class.Outer)).length
      = ps.length := by
  induction ps with
  | nil => rfl
  | cons p rest ih =>
      cases hc : classify p.1 p.2 <;> simp [List.filter_cons, hc] <;> omega

end Mcpi

namespace Mcpi

/-! ## C3: every submission lands in exactly one set -/

/-- C3: after any sequence of accepted submissions the inner set is exactly
the inner-classified submissions in order, the outer set exactly the rest,
so each submission appears in exactly one set; the two sizes sum to the
running counter, which equals the number of submissions.  Concretely,
submitting (0,0), (0.5,0.5), (2,2) yields n = 3 with inner set
[(0,0),(0.5,0.5)] and outer set [(2,2)]. -/
theorem C3_partition_invariant :
    (∀ ps : List (ℚ × ℚ),
      (run initState (ps.map Msg.data)).1.inPts
          = (ps.filter fun v => decide (classify v.1 v.2 = Class.Inner)).map toSample ∧
      (run initState (ps.map Msg.data)).1.outPts
          = (ps.filter fun v => decide (classify v.1 v.2 = Class.Outer)).map toSample ∧
      (run initState (ps.map Msg.data)).1.n = ps.length ∧
      (run initState (ps.map Msg.data)).1.inPts.length
          + (run initState (ps.map Msg.data)).1.outPts.length
          = (run initState (ps.map Msg.data)).1.n) ∧
    (run initState ([((0 : ℚ), (0 : ℚ)), ((1/2 : ℚ), (1/2 : ℚ)),
        ((2 : ℚ), (2 : ℚ))].map Msg.data)).1
      = ⟨[Sample.mk 0 0, Sample.mk (1/2) (1/2)], [Sample.mk 2 2], 3⟩ := by
  have key : ∀ ps : List (ℚ × ℚ),
      (run initState (ps.map Msg.data)).1.inPts
          = (ps.filter fun v => decide (classify v.1 v.2 = Class.Inner)).map toSample ∧
      (run initState (ps.map Msg.data)).1.outPts
          = (ps.filter fun v => decide (classify v.1 v.2 = Class.Outer)).map toSample ∧
      (run initState (ps.map Msg.data)).1.n = ps.length ∧
      (run initState (ps.map Msg.data)).1.inPts.length
          + (run initState (ps.map Msg.data)).1.outPts.length
          = (run initState (ps.map Msg.data)).1.n := by
    intro ps
    rw [run_data_fst ps initState]
    refine ⟨by simp [initState], by simp [initState], by simp [initState], ?_⟩
    have h := classify_filter_length ps
    simp [initState]
    omega
  refine ⟨key, ?_⟩
  obtain ⟨h1, h2, h3, _⟩ := key [((0 : ℚ), (0 : ℚ)), ((1/2 : ℚ), (1/2 : ℚ)),
      ((2 : ℚ), (2 : ℚ))]
  have c1 : classify (0 : ℚ) (0 : ℚ) = Class.Inner := by
    unfold classify
    norm_num
  have c2 : classify ((1/2 : ℚ)) ((1/2 : ℚ)) = Class.Inner := by
    unfold classify
    norm_num
  have c3 : classify ((2 : ℚ)) ((2 : ℚ)) = Class.Outer := by
    unfold classify
    norm_num
  cases hr : (run initState ([((0 : ℚ), (0 : ℚ)), ((1/2 : ℚ), (1/2 : ℚ)),
      ((2 : ℚ), (2 : ℚ))].map Msg.data)).1 with
  | mk a b c =>
      rw [hr] at h1 h2 h3
      simp only [List.filter_cons, List.filter_nil, c1, c2, c3] at h1 h2
      simp at h1 h2 h3
      subst h1
      subst h2
      simp_all [toSample]

end Mcpi

namespace Mcpi

/-! ## Counting published snapshots -/

lemma stepData_snd_of_hit (srv : ServerState) (v : ℚ × ℚ)
    (h : shouldSnapshot (srv.n + 1) = true) :
    (stepData srv v).2
      = some (plot (srv.n + 1) (stepData srv v).1.inPts (stepData srv v).1.outPts) := by
  cases hc : classify v.1 v.2
  · simp only [stepData, hc, h, if_true]
  · simp only [stepData, hc, h, if_true]

lemma stepData_snd_of_miss (srv : ServerState) (v : ℚ × ℚ)
    (h : shouldSnapshot (srv.n + 1) = false) :
    (stepData srv v).2 = none := by
  cases hc : classify v.1 v.2
  · simp only [stepData, hc, h, Bool.false_eq_true, if_false]
  · simp only [stepData, hc, h, Bool.false_eq_true, if_false]

lemma run_data_pubCount (ps : List (ℚ × ℚ)) : ∀ srv : ServerState,
    ((run srv (ps.map Msg.data)).2.countP isPublish) = cadenceCount srv.n ps.length := by
  induction ps with
  | nil =>
      intro srv
      simp [run, cadenceCount]
  | cons p rest ih =>
      intro srv
      simp only [List.map_cons, run, List.countP_append, List.length_cons, cadenceCount]
      rw [ih, stepData_n]
      cases h : shouldSnapshot (srv.n + 1)
      · rw [stepData_snd_of_miss srv p h]
        simp
      · rw [stepData_snd_of_hit srv p h]
        simp [isPublish, List.countP_cons]
        try omega

/-- Splitting the cadence count over an interval, used to evaluate the
count at 10000 in chunks small enough for kernel reduction. -/
lemma cadenceCount_add (a : ℕ) : ∀ b n0 : ℕ,
    cadenceCount n0 (a + b) = cadenceCount n0 a + cadenceCount (n0 + a) b := by
  induction a with
  | zero =>
      intro b n0
      simp [cadenceCount]
  | succ a ih =>
      intro b n0
      rw [show a + 1 + b = (a + b) + 1 from by omega]
      simp only [cadenceCount]
      rw [ih b (n0 + 1), show n0 + 1 + a = n0 + (a + 1) from by omega]
      omega

lemma cadenceCount_thousands : ∀ k : ℕ, k ≤ 9 →
    cadenceCount 0 (1000 * (k + 1)) = 28 + k := by
  intro k
  induction k with
  | zero =>
      intro _
      show cadenceCount 0 (1000 * 1) = 28
      rw [show (1000 * 1 : ℕ) = 1000 from by norm_num]
      decide
  | succ k ih =>
      intro hk
      have hsplit := cadenceCount_add (1000 * (k + 1)) 1000 0
      rw [show (1000 * (k + 1) + 1000 : ℕ) = 1000 * (k + 2) from by ring] at hsplit
      rw [show (k + 1 + 1 : ℕ) = k + 2 from rfl]
      rw [hsplit, ih (by omega)]
      have hone : cadenceCount (0 + 1000 * (k + 1)) 1000 = 1 := by
        have hk8 : k ≤ 8 := by omega
        interval_cases k <;> decide
      omega

lemma cadenceCount_10000 : cadenceCount 0 10000 = 37 := by
  have h := cadenceCount_thousands 9 (by norm_num)
  rw [show (1000 * (9 + 1) : ℕ) = 10000 from by norm_num] at h
  omega

lemma cadenceCount_eq_countP (len : ℕ) : ∀ n0 : ℕ,
    cadenceCount n0 len
      = ((List.range len).map (fun k => n0 + k + 1)).countP shouldSnapshot := by
  induction len with
  | zero =>
      intro n0
      rfl
  | succ len ih =>
      intro n0
      rw [List.range_succ_eq_map]
      simp only [List.map_cons, List.map_map, List.countP_cons]
      rw [show ((fun k => n0 + k + 1) ∘ Nat.succ) = (fun k => (n0 + 1) + k + 1)
            from funext fun k => by simp [Function.comp]; omega]
      rw [← ih (n0 + 1)]
      simp only [cadenceCount]
      have : n0 + 0 + 1 = n0 + 1 := by omega
      rw [this]
      omega

end Mcpi

namespace Mcpi

/-! ## The done branch: forced final snapshot and loop exit -/

lemma run_data_done (ps : List (ℚ × ℚ)) : ∀ srv : ServerState,
    run srv (ps.map Msg.data ++ [Msg.done]) =
      ((run srv (ps.map Msg.data)).1,
       (run srv (ps.map Msg.data)).2
         ++ [Event.publish (plot (run srv (ps.map Msg.data)).1.n
               (run srv (ps.map Msg.data)).1.inPts
               (run srv (ps.map Msg.data)).1.outPts),
             Event.sleepMs 1000, Event.signalQuit]) := by
  induction ps with
  | nil =>
      intro srv
      simp [run]
  | cons p rest ih =>
      intro srv
      simp only [List.map_cons, List.cons_append, run, List.append_eq]
      rw [ih]
      simp [List.append_assoc]

lemma run_after_first_done (msgs : List Msg) :
    ∀ (srv : ServerState) (rest rest2 : List Msg),
    run srv (msgs ++ Msg.done :: rest) = run srv (msgs ++ Msg.done :: rest2) := by
  induction msgs with
  | nil =>
      intro srv rest rest2
      rfl
  | cons m ms ih =>
      intro srv rest rest2
      cases m with
      | data v =>
          simp only [List.cons_append, run, List.append_eq]
          rw [ih]
      | done => rfl

/-! ## C4: finalize forces exactly one last snapshot -/

/-- C4: after any submission history, processing the `done` signal leaves
the server state (both sets and the count) unchanged, appends exactly one
forced publish — unconditionally, whatever the cadence predicate says at
the current `n` — whose plot is tagged with the terminal running count
(equal to the number of submissions) and built from the untouched sets,
and then sleeps the bounded one-second settle delay before the quit
acknowledgement that lets `Quit()` return. -/
theorem C4_finalize_forced_snapshot (ps : List (ℚ × ℚ)) :
    (run initState (ps.map Msg.data ++ [Msg.done])).1
        = (run initState (ps.map Msg.data)).1 ∧
    (run initState (ps.map Msg.data ++ [Msg.done])).2
      = (run initState (ps.map Msg.data)).2
        ++ [Event.publish (plot (run initState (ps.map Msg.data)).1.n
              (run initState (ps.map Msg.data)).1.inPts
              (run initState (ps.map Msg.data)).1.outPts),
            Event.sleepMs 1000, Event.signalQuit] ∧
    ((run initState (ps.map Msg.data ++ [Msg.done])).2.countP isPublish)
      = (run initState (ps.map Msg.data)).2.countP isPublish + 1 ∧
    (run initState (ps.map Msg.data)).1.n = ps.length := by
  have h := run_data_done ps initState
  refine ⟨by rw [h], by rw [h], ?_, ?_⟩
  · rw [h]
    simp [List.countP_append, List.countP_cons, isPublish]
  · rw [run_data_fst ps initState]
    simp [initState]

/-! ## C5: 10000 submissions cause exactly 37 renders -/

/-- C5: any sequence of exactly 10000 submissions produces exactly 37
published plots — one for each n in [1, 10000] satisfying the cadence
predicate — and n = 10000 itself satisfies the predicate (decade-boundary
rule), so no extra forced render is needed for it. -/
theorem C5_10000_renders (ps : List (ℚ × ℚ)) (h : ps.length = 10000) :
    ((run initState (ps.map Msg.data)).2.countP isPublish) = 37 ∧
    ((List.range 10000).map (fun k => k + 1)).countP shouldSnapshot = 37 ∧
    shouldSnapshot 10000 = true := by
  refine ⟨?_, ?_, by decide⟩
  · rw [run_data_pubCount ps initState,
        show initState.n = 0 from rfl, h]
    exact cadenceCount_10000
  · have h0 := cadenceCount_eq_countP 10000 0
    rw [show (fun k => 0 + k + 1) = (fun k : ℕ => k + 1)
          from funext fun k => by omega] at h0
    rw [← h0]
    exact cadenceCount_10000

/-- Witness for C5: a concrete batch of 10000 submissions. -/
theorem C5_witness :
    (List.replicate 10000 ((0 : ℚ), (0 : ℚ))).length = 10000 ∧
    ((run initState
        ((List.replicate 10000 ((0 : ℚ), (0 : ℚ))).map Msg.data)).2.countP isPublish)
      = 37 := by
  have hlen : (List.replicate 10000 ((0 : ℚ), (0 : ℚ))).length = 10000 :=
    List.length_replicate 10000 ((0 : ℚ), (0 : ℚ))
  exact ⟨hlen, (C5_10000_renders (List.replicate 10000 ((0 : ℚ), (0 : ℚ))) hlen).1⟩

/-! ## C8: a second finalize is never received -/

/-- C8 counterexample: after two `done` signals the loop emits exactly one
quit acknowledgement, not two — the loop returns at the first `done`, so
the second `Quit()` call neither completes as a no-op nor reports an
already-terminated condition: its send on `done` is never received and it
blocks forever awaiting an acknowledgement. -/
theorem C8_counterexample :
    quitAcks [Msg.done, Msg.done] = 1 ∧ quitAcks [Msg.done, Msg.done] ≠ 2 := by
  constructor
  · decide
  · decide

/-- C8 amended: a second `done` after the first changes nothing at all —
the run after both signals equals the run after the first alone (state
untouched, no republish, and still exactly one quit acknowledgement, so
the second caller is never released). -/
theorem C8_second_done_ignored (msgs : List Msg) :
    run initState (msgs ++ [Msg.done, Msg.done])
        = run initState (msgs ++ [Msg.done]) ∧
    quitAcks (msgs ++ [Msg.done, Msg.done]) = quitAcks (msgs ++ [Msg.done]) := by
  have h := run_after_first_done msgs initState [Msg.done] []
  constructor
  · exact h
  · unfold quitAcks
    rw [h]

end Mcpi
